import Mathlib

/-!
# Verification of `migration.go` (payfazz/mysql-migration)

A shallow embedding of `Migrate`, `ensureMetatable`, `setLogicalLock` and
`boolToString`.  The Go code talks to a database through `ExecContext`,
`QueryRowContext(..).Scan` and waits on a ticker; the embedding is written
against an explicit `Driver` that answers those calls, and it is then run
against two drivers:

* `mysql env`: a single-connection model of the `__meta` table (the three rows
  the program reads and writes), with a context that can be cancelled and
  driver errors that can be injected at any call;
* `scripted replies rows ticks`: a driver that answers the n-th execute call, the
  n-th query and the n-th wait exactly as given sequences say, used for the
  polling loop.
-/

namespace Migration

/-! ## Errors and results -/

/-- Values of Go's `error` that the program can return. -/
inductive Err where
  /-- The value of `ctx.Err()` of the caller's context. -/
  | canceled
  /-- An error reported by the database driver. -/
  | driver (msg : String)
  /-- The value `sql.ErrNoRows`, from `Scan` on an empty result. -/
  | noRows
  /-- A conversion error of `Scan` (the column text is no `int`). -/
  | scan (text : String)
  /-- The value of `fmt.Errorf("Invalid application_id on database")`. -/
  | invalidAppID
  deriving DecidableEq, Repr

/-- How a call of a Go function ends: it returns an `error` (`none` is `nil`),
it panics, or the model ran out of fuel inside a polling loop. -/
inductive Result where
  | returned (err : Option Err)
  | panicked (msg : String)
  | outOfFuel
  deriving DecidableEq, Repr

/-! ## Database calls -/

/-- The `ExecContext` calls of the source, one constructor for each call site. -/
inductive Call where
  /-- Line 68: `create table if not exists __meta(...)`. -/
  | createMeta
  /-- Line 75: `insert ignore into __meta ...` with the three default rows. -/
  | insertDefaults
  /-- Line 95: `update __meta set value = ? where key = 'locked' and value = ?`. -/
  | updateLocked (value expected : String)
  /-- Line 33: `update __meta set value = ? where key = 'application_id'`. -/
  | updateAppID (value : String)
  /-- Line 53: one of the caller's statements. -/
  | statement (text : String)
  /-- Line 57: `update __meta set value = ? where key = 'user_version'`. -/
  | updateUserVersion (value : Int)
  deriving DecidableEq, Repr

/-- The `QueryRowContext` calls of the source. -/
inductive Query where
  /-- Line 26: `select value from __meta where key = 'application_id'`. -/
  | selectAppID
  /-- Line 46: `select value from __meta where key = 'user_version'`. -/
  | selectUserVersion
  deriving DecidableEq, Repr

/-- What `ExecContext` followed by `RowsAffected` gives: the call fails, or it
yields a result whose `RowsAffected` is an error or a count. -/
inductive ExecResult where
  | failed (e : Err)
  | result (rowsAffected : Except Err Int)

/-- Everything the program observes or does outside its own memory. -/
inductive Event where
  | exec (c : Call)
  | query (q : Query)
  /-- The `select` on the ticker and `ctx.Done()` in `setLogicalLock`. -/
  | wait
  deriving DecidableEq, Repr

/-- The interface the program runs against, over a state `σ` of the outside
world.  `wait` answers `none` when the ticker fires and `some e` when the
context is done first, `e` being `ctx.Err()`. -/
structure Driver (σ : Type) where
  exec : Call → σ → ExecResult × σ
  query : Query → σ → Except Err String × σ
  wait : σ → Option Err × σ

/-! ## Text and integers -/

/-- Source: `boolToString`. -/
def boolToString (b : Bool) : String :=
  if b then "true" else "false"

/-- Width of Go's `int` on the 64-bit platforms the program is built for. -/
def intBits : Nat := 64

/-- One step of `strconv.ParseUint` in base 10: a decimal digit extends the
number, any other character is a syntax error. -/
def parseStep (acc : Option Nat) (c : Char) : Option Nat :=
  match acc with
  | none => none
  | some a => if c.isDigit then some (a * 10 + (c.toNat - 48)) else none

/-- Base-10 `strconv.ParseUint` without its range check: at least one
character, all of them decimal digits. -/
def parseUint (cs : List Char) : Option Nat :=
  match cs with
  | [] => none
  | _ :: _ => cs.foldl parseStep (some 0)

/-- The conversion `Scan` applies to a text column read into an `int`:
`strconv.ParseInt(text, 10, 64)`, an optional sign, decimal digits, and the
value within the range of `int`. -/
def parseInt (text : String) : Option Int :=
  match text.data with
  | [] => none
  | c :: cs =>
    if c = '-' then
      match parseUint cs with
      | some n => if n ≤ 2 ^ (intBits - 1) then some (Int.negOfNat n) else none
      | none => none
    else
      match parseUint (if c = '+' then cs else c :: cs) with
      | some n => if n < 2 ^ (intBits - 1) then some (Int.ofNat n) else none
      | none => none

/-- The decimal text the database stores for an integer parameter. -/
def formatInt (v : Int) : String :=
  toString v

/-! ## The program -/

/-- Source: `ensureMetatable`. -/
def ensureMetatable {σ : Type} (D : Driver σ) (s : σ) : Option Err × σ :=
  match D.exec Call.createMeta s with
  | (ExecResult.failed e, s1) => (some e, s1)
  | (ExecResult.result _, s1) =>
    match D.exec Call.insertDefaults s1 with
    | (ExecResult.failed e, s2) => (some e, s2)
    | (ExecResult.result _, s2) => (none, s2)

/-- Source: `setLogicalLock`.  The `for` loop has no bound in the source; the
first argument bounds the number of iterations of the model, and the outer
`none` says the bound was reached before the function returned. -/
def setLogicalLock {σ : Type} (D : Driver σ) (desired : Bool) :
    Nat → σ → Option (Option Err) × σ
  | 0, s => (none, s)
  | fuel + 1, s =>
    match D.exec (Call.updateLocked (boolToString desired) (boolToString (!desired))) s with
    | (ExecResult.failed e, s1) => (some (some e), s1)
    | (ExecResult.result (Except.error e), s1) => (some (some e), s1)
    | (ExecResult.result (Except.ok affected), s1) =>
      if affected = 1 then (some none, s1)
      else
        match D.wait s1 with
        | (some e, s2) => (some (some e), s2)
        | (none, s2) => setLogicalLock D desired fuel s2

/-- Source: the loop of `Migrate`, lines 51-56, for a non-negative
`userVersion`.  The first argument is the number of iterations left,
`len(statements) - userVersion` at entry; the loop also leaves when
`userVersion < len(statements)` fails.  It yields the error of the statement
that failed, if any, and the final `userVersion`. -/
def applyLoop {σ : Type} (D : Driver σ) (statements : List String) :
    Nat → Nat → σ → (Option Err × Nat) × σ
  | 0, userVersion, s => ((none, userVersion), s)
  | n + 1, userVersion, s =>
    match statements[userVersion]? with
    | none => ((none, userVersion), s)
    | some statement =>
      match D.exec (Call.statement statement) s with
      | (ExecResult.failed e, s1) => ((some e, userVersion), s1)
      | (ExecResult.result _, s1) => applyLoop D statements n (userVersion + 1) s1

/-- Source: `Migrate`, lines 45-64: read `user_version`, run the loop, write
the checkpoint. -/
def migrateFromVersion {σ : Type} (D : Driver σ) (statements : List String) (s : σ) :
    Result × σ :=
  match D.query Query.selectUserVersion s with
  | (Except.error e, s1) => (Result.returned (some e), s1)
  | (Except.ok text, s1) =>
    match parseInt text with
    | none => (Result.returned (some (Err.scan text)), s1)
    | some (Int.negSucc _) =>
      -- `userVersion < len(statements)` holds and `statements[userVersion]` panics
      (Result.panicked "runtime error: index out of range", s1)
    | some (Int.ofNat userVersion) =>
      match applyLoop D statements (statements.length - userVersion) userVersion s1 with
      | ((some e, _), s2) => (Result.returned (some e), s2)
      | ((none, userVersion1), s2) =>
        match D.exec (Call.updateUserVersion (Int.ofNat userVersion1)) s2 with
        | (ExecResult.failed e, s3) => (Result.returned (some e), s3)
        | (ExecResult.result _, s3) => (Result.returned none, s3)

/-- Source: `Migrate`, lines 25-64: the section that runs between the
acquisition of the lock and the deferred release. -/
def migrateLocked {σ : Type} (D : Driver σ) (appID : String) (statements : List String)
    (s : σ) : Result × σ :=
  match D.query Query.selectAppID s with
  | (Except.error e, s1) => (Result.returned (some e), s1)
  | (Except.ok curAppID, s1) =>
    if curAppID = "" then
      match D.exec (Call.updateAppID appID) s1 with
      | (ExecResult.failed e, s2) => (Result.returned (some e), s2)
      | (ExecResult.result _, s2) => migrateFromVersion D statements s2
    else if curAppID ≠ appID then
      (Result.returned (some Err.invalidAppID), s1)
    else migrateFromVersion D statements s1

/-- Source: `Migrate`, line 23: `defer setLogicalLock(ctx, db, false)`.  The
deferred call runs on the state the locked section left, whether that section
returned or panicked; its own return value is dropped and `Migrate` ends the
way the locked section did. -/
def deferredRelease {σ : Type} (D : Driver σ) (fuel : Nat) (locked : Result × σ) :
    Result × σ :=
  match setLogicalLock D false fuel locked.2 with
  | (none, s4) => (Result.outOfFuel, s4)
  | (some _, s4) => (locked.1, s4)

/-- Source: `Migrate`.  `fuel` bounds each of the two polling loops. -/
def Migrate {σ : Type} (D : Driver σ) (fuel : Nat) (appID : String)
    (statements : List String) (s : σ) : Result × σ :=
  if appID = "" then
    (Result.panicked "migrate: invalid params: appID can't be empty string", s)
  else
    match ensureMetatable D s with
    | (some e, s1) => (Result.returned (some e), s1)
    | (none, s1) =>
      match setLogicalLock D true fuel s1 with
      | (none, s2) => (Result.outOfFuel, s2)
      | (some (some e), s2) => (Result.returned (some e), s2)
      | (some none, s2) => deferredRelease D fuel (migrateLocked D appID statements s2)

/-! ## The database behind the driver -/

/-- The rows of `__meta` the program reads and writes, by key; `none` is a
missing row.  The primary key on `key` allows one row for each key. -/
structure MetaTable where
  application_id : Option String
  user_version : Option String
  locked : Option String
  deriving DecidableEq, Repr

/-- What happens to one invocation from outside: the event at which the
caller's context is cancelled (from then on every call made with that context
fails with `ctx.Err()` without reaching the database), and the driver errors
injected into single calls.  Events are numbered by their position in the
log. -/
structure Env where
  cancelAt : Option Nat
  fault : Nat → Option Err

/-- The database and the record of the events issued so far, oldest first.
`table` is `none` while `__meta` does not exist. -/
structure World where
  table : Option MetaTable
  log : List Event
  deriving DecidableEq, Repr

/-- The context is done at event `i`. -/
def Env.cancelled (env : Env) (i : Nat) : Bool :=
  match env.cancelAt with
  | some c => decide (c ≤ i)
  | none => false

/-- The error, if any, that keeps the call at event `i` from being run by the
database. -/
def Env.interrupt (env : Env) (i : Nat) : Option Err :=
  if env.cancelled i then some Err.canceled else env.fault i

/-- The rows `insert ignore` leaves: a row that exists keeps its value. -/
def insertIgnoreDefaults (m : MetaTable) : MetaTable :=
  { application_id := some (m.application_id.getD ""),
    user_version := some (m.user_version.getD "0"),
    locked := some (m.locked.getD "false") }

/-- Rows changed by `update .. set value = v` on a row holding `old`. -/
def changed (old v : String) : Int :=
  if old = v then 0 else 1

/-- What the database does with a call that reaches it: an error, or the
affected-row count and the new table.  The caller's statements are not
interpreted: they are taken to leave `__meta` alone.  The program reads the
count of the update of `locked` only; the counts of `create table`, `insert
ignore` and the caller's statements are given as 0. -/
def runCall (c : Call) (table : Option MetaTable) : Except Err (Int × Option MetaTable) :=
  match c, table with
  | Call.createMeta, none => Except.ok (0, some ⟨none, none, none⟩)
  | Call.createMeta, some m => Except.ok (0, some m)
  | Call.statement _, t => Except.ok (0, t)
  | _, none => Except.error (Err.driver "Table __meta does not exist")
  | Call.insertDefaults, some m => Except.ok (0, some (insertIgnoreDefaults m))
  | Call.updateLocked value expected, some m =>
    if m.locked = some expected then
      Except.ok (changed expected value, some { m with locked := some value })
    else Except.ok (0, some m)
  | Call.updateAppID value, some m =>
    match m.application_id with
    | some old => Except.ok (changed old value, some { m with application_id := some value })
    | none => Except.ok (0, some m)
  | Call.updateUserVersion value, some m =>
    match m.user_version with
    | some old =>
      Except.ok (changed old (formatInt value),
        some { m with user_version := some (formatInt value) })
    | none => Except.ok (0, some m)

/-- What the database answers to a query that reaches it; a missing row makes
`Scan` return `sql.ErrNoRows`. -/
def runQuery (q : Query) (table : Option MetaTable) : Except Err String :=
  match table with
  | none => Except.error (Err.driver "Table __meta does not exist")
  | some m =>
    match q with
    | Query.selectAppID =>
      match m.application_id with
      | some v => Except.ok v
      | none => Except.error Err.noRows
    | Query.selectUserVersion =>
      match m.user_version with
      | some v => Except.ok v
      | none => Except.error Err.noRows

/-- Adds an event to the log. -/
def World.record (w : World) (e : Event) : World :=
  { w with log := w.log ++ [e] }

/-- The driver of one invocation that is alone on the database: every call is
recorded; a call made after the context is done, or hit by an injected error,
fails and changes nothing; any other call is run by `runCall` or `runQuery`.
A wait ends with the tick unless the context is done by then. -/
def mysql (env : Env) : Driver World where
  exec c w :=
    match env.interrupt w.log.length with
    | some e => (ExecResult.failed e, w.record (Event.exec c))
    | none =>
      match runCall c w.table with
      | Except.error e => (ExecResult.failed e, w.record (Event.exec c))
      | Except.ok (n, t) =>
        (ExecResult.result (Except.ok n), { table := t, log := w.log ++ [Event.exec c] })
  query q w :=
    match env.interrupt w.log.length with
    | some e => (Except.error e, w.record (Event.query q))
    | none => (runQuery q w.table, w.record (Event.query q))
  wait w :=
    if env.cancelled w.log.length then (some Err.canceled, w.record Event.wait)
    else (none, w.record Event.wait)

/-- An environment in which the context is never cancelled and no call fails. -/
def Env.quiet : Env :=
  { cancelAt := none, fault := fun _ => none }

/-- An environment whose only incident is the driver error `e` at event `k`. -/
def Env.failAt (k : Nat) (e : Err) : Env :=
  { cancelAt := none, fault := fun i => if i = k then some e else none }

/-- An environment in which the caller's context is cancelled at event `k`. -/
def Env.cancelFrom (k : Nat) : Env :=
  { cancelAt := some k, fault := fun _ => none }

/-- The bookkeeping rows at their defaults. -/
def MetaTable.defaults : MetaTable :=
  { application_id := some "", user_version := some "0", locked := some "false" }

/-- The bookkeeping rows at their defaults and nothing issued yet. -/
def World.fresh : World :=
  { table := some MetaTable.defaults, log := [] }

/-- A store owned by `appID` at the given `user_version`, unlocked, and nothing
issued yet. -/
def World.unlocked (appID version : String) : World :=
  { table := some ⟨some appID, some version, some "false"⟩, log := [] }

/-- The two statements of the scenarios of the specification. -/
def exampleStatements : List String :=
  ["create table t (id int)", "alter table t add column name text"]

/-- The caller's statements among a list of events, in order. -/
def statementsOf : List Event → List String
  | [] => []
  | Event.exec (Call.statement text) :: rest => text :: statementsOf rest
  | _ :: rest => statementsOf rest

/-- The events of running the given statements one after the other. -/
def statementEvents (texts : List String) : List Event :=
  texts.map (fun text => Event.exec (Call.statement text))

/-- Number of events `Migrate` issues before its first statement when the lock is
free and the stored identity is `curAppID`: the two calls of `ensureMetatable`, the
update of `locked`, the read of `application_id`, its update when it is empty, and the
read of `user_version`. -/
def eventsBeforeStatements (curAppID : String) : Nat :=
  if curAppID = "" then 6 else 5

/-- The events a run added to the log of the world it started from. -/
def World.since (after before : World) : List Event :=
  after.log.drop before.log.length

/-! ## A driver that follows a script -/

/-- State of the scripted driver: how many execute calls, queries and waits
were answered, and the events issued. -/
structure Script where
  execs : Nat
  queries : Nat
  waits : Nat
  log : List Event
  deriving DecidableEq, Repr

/-- The driver that answers the n-th execute call with `replies n`, the n-th
query with `rows n` and the n-th wait with `ticks n`. -/
def scripted (replies : Nat → ExecResult) (rows : Nat → Except Err String)
    (ticks : Nat → Option Err) : Driver Script where
  exec c s := (replies s.execs, { s with execs := s.execs + 1, log := s.log ++ [Event.exec c] })
  query q s :=
    (rows s.queries, { s with queries := s.queries + 1, log := s.log ++ [Event.query q] })
  wait s := (ticks s.waits, { s with waits := s.waits + 1, log := s.log ++ [Event.wait] })

/-- The events of `k` rounds of the polling loop that each end with a tick: the
conditional update, then the wait. -/
def pollEvents (desired : Bool) : Nat → List Event
  | 0 => []
  | k + 1 =>
    Event.exec (Call.updateLocked (boolToString desired) (boolToString (!desired))) ::
      Event.wait :: pollEvents desired k

/-- Replies of a database on which the lock is taken by `k` consecutive attempts
(zero rows affected) and free afterwards (one row affected). -/
def contended (k : Nat) (i : Nat) : ExecResult :=
  if i < k then ExecResult.result (Except.ok 0) else ExecResult.result (Except.ok 1)

/-- The empty script state. -/
def Script.start : Script :=
  { execs := 0, queries := 0, waits := 0, log := [] }

/-! ## Decimal text -/

/-- A decimal digit extends the number read so far. -/
theorem parseStep_digitChar (a d : Nat) (hd : d < 10) :
    parseStep (some a) (Nat.digitChar d) = some (a * 10 + d) := by
  have key : ∀ d, d < 10 → ((Nat.digitChar d).isDigit = true ∧ (Nat.digitChar d).toNat - 48 = d) := by
    decide
  obtain ⟨h1, h2⟩ := key d hd
  simp [parseStep, h1, h2]

/-- Reading the digits that `Nat.toDigitsCore` puts in front of `ds` is reading `ds` from
`n`. -/
theorem foldl_parseStep_toDigitsCore (fuel : Nat) :
    ∀ (n : Nat) (ds : List Char), n < fuel →
      (Nat.toDigitsCore 10 fuel n ds).foldl parseStep (some 0) = ds.foldl parseStep (some n) := by
  induction fuel with
  | zero => intro n ds h; omega
  | succ fuel ih =>
    intro n ds h
    simp only [Nat.toDigitsCore]
    split
    · rename_i h0
      have hn : n % 10 = n := by omega
      simp only [List.foldl]
      rw [parseStep_digitChar 0 (n % 10) (Nat.mod_lt _ (by decide)), hn, Nat.zero_mul, Nat.zero_add]
    · rename_i h0
      rw [ih (n / 10) _ (by omega)]
      simp only [List.foldl]
      rw [parseStep_digitChar (n / 10) (n % 10) (Nat.mod_lt _ (by decide))]
      congr 2
      omega

/-- The text of a number starts with a decimal digit. -/
theorem toDigitsCore_head (fuel : Nat) :
    ∀ (n : Nat) (ds : List Char), 0 < fuel →
      ∃ d cs, d < 10 ∧ Nat.toDigitsCore 10 fuel n ds = Nat.digitChar d :: cs := by
  induction fuel with
  | zero => intro n ds h; omega
  | succ fuel ih =>
    intro n ds _
    simp only [Nat.toDigitsCore]
    split
    · exact ⟨n % 10, ds, Nat.mod_lt _ (by decide), rfl⟩
    · cases fuel with
      | zero => exact ⟨n % 10, ds, Nat.mod_lt _ (by decide), rfl⟩
      | succ k => exact ih (n / 10) _ (by omega)

/-- A decimal digit is no sign. -/
theorem digitChar_not_sign : ∀ d, d < 10 → Nat.digitChar d ≠ '-' ∧ Nat.digitChar d ≠ '+' := by
  decide

/-- The text of a non-negative integer is the list of its decimal digits. -/
theorem formatInt_ofNat_data (n : Nat) : (formatInt (Int.ofNat n)).data = Nat.toDigits 10 n := by
  rfl

/-- What `Scan` reads is the `user_version` the program wrote, for every value in the range
of `int`. -/
theorem parseInt_formatInt (n : Nat) (hn : n < 2 ^ (intBits - 1)) :
    parseInt (formatInt (Int.ofNat n)) = some (Int.ofNat n) := by
  obtain ⟨d, cs, hd, hcs⟩ := toDigitsCore_head (n + 1) n [] (by omega)
  have hfold := foldl_parseStep_toDigitsCore (n + 1) n [] (by omega)
  obtain ⟨h1, h2⟩ := digitChar_not_sign d hd
  unfold parseInt
  rw [formatInt_ofNat_data, Nat.toDigits, hcs]
  rw [hcs] at hfold
  simp only [h1, h2, if_false, parseUint, hfold, List.foldl, hn, if_true]

/-! ## Logs -/

/-- The events of a non-empty list of statements. -/
theorem statementEvents_cons (text : String) (rest : List String) :
    statementEvents (text :: rest) = Event.exec (Call.statement text) :: statementEvents rest := rfl

/-- One event for each statement. -/
theorem statementEvents_length (texts : List String) :
    (statementEvents texts).length = texts.length := by
  simp [statementEvents]

/-- The statements of two logs put together. -/
theorem statementsOf_append (xs ys : List Event) :
    statementsOf (xs ++ ys) = statementsOf xs ++ statementsOf ys := by
  induction xs with
  | nil => rfl
  | cons x xs ih =>
    cases x with
    | exec c => cases c <;> simp [statementsOf, ih]
    | query q => simp [statementsOf, ih]
    | wait => simp [statementsOf, ih]

/-- The statements among the events of a list of statements are that list. -/
theorem statementsOf_statementEvents (texts : List String) :
    statementsOf (statementEvents texts) = texts := by
  induction texts with
  | nil => rfl
  | cons x xs ih => rw [statementEvents_cons, statementsOf, ih]

/-- The events added to a log. -/
theorem since_append (t1 t2 : Option MetaTable) (log extra : List Event) :
    World.since ⟨t1, log ++ extra⟩ ⟨t2, log⟩ = extra := by
  simp [World.since]

/-- An element of the middle part of a list of three parts. -/
theorem getElem?_middle {α : Type} (xs ys zs : List α) (j : Nat) (hj : j < ys.length) :
    (xs ++ ys ++ zs)[xs.length + j]? = ys[j]? := by
  rw [List.getElem?_append_left (by simp only [List.length_append]; omega),
    List.getElem?_append_right (by omega)]
  simp

/-- The `j`-th event of the first `m` statements from `v` on is the statement of index `v
+ j`. -/
theorem statementEvents_take_drop_getElem? (statements : List String) (v m j : Nat)
    (hj : j < m) :
    (statementEvents ((statements.drop v).take m))[j]? =
      (statements[v + j]?).map (fun text => Event.exec (Call.statement text)) := by
  simp [statementEvents, List.getElem?_take, hj]

/-! ## The database driver, call by call -/

/-- An execute call that is not interrupted is run by the database and recorded. -/
theorem mysql_exec_eq (env : Env) (c : Call) (t : Option MetaTable) (log : List Event)
    (h : env.interrupt log.length = none) :
    (mysql env).exec c ⟨t, log⟩ =
      match runCall c t with
      | Except.error e => (ExecResult.failed e, ⟨t, log ++ [Event.exec c]⟩)
      | Except.ok (n, t1) => (ExecResult.result (Except.ok n), ⟨t1, log ++ [Event.exec c]⟩) := by
  simp [mysql, h, World.record]

/-- An interrupted execute call fails with the interrupting error, changes nothing and is
recorded. -/
theorem mysql_exec_interrupted (env : Env) (c : Call) (t : Option MetaTable) (log : List Event)
    (e : Err) (h : env.interrupt log.length = some e) :
    (mysql env).exec c ⟨t, log⟩ = (ExecResult.failed e, ⟨t, log ++ [Event.exec c]⟩) := by
  simp [mysql, h, World.record]

/-- A query that is not interrupted is answered by the database and recorded. -/
theorem mysql_query_eq (env : Env) (q : Query) (t : Option MetaTable) (log : List Event)
    (h : env.interrupt log.length = none) :
    (mysql env).query q ⟨t, log⟩ = (runQuery q t, ⟨t, log ++ [Event.query q]⟩) := by
  simp [mysql, h, World.record]

/-- A statement of the caller leaves `__meta` as it is. -/
theorem runCall_statement (text : String) (t : Option MetaTable) :
    runCall (Call.statement text) t = Except.ok (0, t) := by
  cases t <;> rfl

/-- The update of `user_version` touches no other row, whether it runs or fails. -/
theorem mysql_exec_updateUserVersion (env : Env) (value : Int) (log : List Event)
    (a l : Option String) (text : String) :
    ∃ x u, (mysql env).exec (Call.updateUserVersion value) ⟨some ⟨a, some text, l⟩, log⟩ =
      (x, ⟨some ⟨a, some u, l⟩, log ++ [Event.exec (Call.updateUserVersion value)]⟩) := by
  cases h : env.interrupt log.length with
  | none => exact ⟨_, _, by rw [mysql_exec_eq env _ _ log h]; rfl⟩
  | some e => exact ⟨_, _, mysql_exec_interrupted env _ _ log e h⟩

/-! ## The functions of the program on the database driver -/

/-- Bootstrap that is not interrupted creates the table if needed and fills in the missing
default rows. -/
theorem ensureMetatable_mysql (env : Env) (log : List Event) (t : Option MetaTable)
    (h0 : env.interrupt log.length = none) (h1 : env.interrupt (log.length + 1) = none) :
    ensureMetatable (mysql env) ⟨t, log⟩ =
      (none, ⟨some (insertIgnoreDefaults (t.getD ⟨none, none, none⟩)),
        log ++ [Event.exec Call.createMeta, Event.exec Call.insertDefaults]⟩) := by
  cases t <;> simp [ensureMetatable, mysql_exec_eq, h0, h1, runCall]

/-- On a free lock Acquire succeeds with its first update. -/
theorem acquire_mysql (env : Env) (fuel : Nat) (log : List Event) (a u : Option String)
    (h : env.interrupt log.length = none) :
    setLogicalLock (mysql env) true (fuel + 1) ⟨some ⟨a, u, some "false"⟩, log⟩ =
      (some none, ⟨some ⟨a, u, some "true"⟩, log ++ [Event.exec (Call.updateLocked "true" "false")]⟩) := by
  simp [setLogicalLock, mysql_exec_eq, h, runCall, boolToString, changed]

/-- On a held lock Release returns after one update; the row holds `"false"` when that
update was not interrupted. -/
theorem release_mysql (env : Env) (fuel : Nat) (log : List Event) (a u : Option String)
    (hfuel : 0 < fuel) :
    ∃ r l, setLogicalLock (mysql env) false fuel ⟨some ⟨a, u, some "true"⟩, log⟩ =
        (some r, ⟨some ⟨a, u, some l⟩, log ++ [Event.exec (Call.updateLocked "false" "true")]⟩) ∧
      (env.interrupt log.length = none → l = "false") := by
  obtain ⟨k, rfl⟩ : ∃ k, fuel = k + 1 := ⟨fuel - 1, by omega⟩
  cases h : env.interrupt log.length with
  | none =>
    refine ⟨none, "false", ?_, fun _ => rfl⟩
    simp [setLogicalLock, mysql_exec_eq, h, runCall, boolToString, changed]
  | some e =>
    refine ⟨some e, "true", ?_, fun h2 => by simp at h2⟩
    simp [setLogicalLock, mysql_exec_interrupted env _ _ log e h, boolToString]

/-- The deferred release on a held lock: one more event, and the result of the locked
section is kept. -/
theorem deferredRelease_mysql (env : Env) (fuel : Nat) (log : List Event) (a u : Option String)
    (r : Result) (hfuel : 0 < fuel) :
    ∃ l, deferredRelease (mysql env) fuel (r, ⟨some ⟨a, u, some "true"⟩, log⟩) =
        (r, ⟨some ⟨a, u, some l⟩, log ++ [Event.exec (Call.updateLocked "false" "true")]⟩) ∧
      (env.interrupt log.length = none → l = "false") := by
  obtain ⟨r1, l, h, hl⟩ := release_mysql env fuel log a u hfuel
  exact ⟨l, by simp [deferredRelease, h], hl⟩

/-- The bound of the model never ends the loop: with at least `len(statements) -
userVersion` iterations allowed the loop ends as it does with exactly that many. -/
theorem applyLoop_fuel {σ : Type} (D : Driver σ) (statements : List String) :
    ∀ (n v : Nat) (s : σ), statements.length - v ≤ n →
      applyLoop D statements n v s = applyLoop D statements (statements.length - v) v s := by
  intro n
  induction n with
  | zero =>
    intro v s hn
    rw [Nat.le_zero.mp hn]
  | succ n ih =>
    intro v s hn
    by_cases hv : v < statements.length
    · obtain ⟨k, hk⟩ : ∃ k, statements.length - v = k + 1 :=
        ⟨statements.length - v - 1, by omega⟩
      have hk2 : statements.length - (v + 1) = k := by omega
      rw [hk, applyLoop, applyLoop, List.getElem?_eq_getElem hv]
      simp only
      cases D.exec (Call.statement statements[v]) s with
      | mk r s1 =>
        cases r with
        | failed e => rfl
        | result x =>
          simp only
          rw [ih (v + 1) s1 (by omega), hk2]
    · have hv2 : statements.length ≤ v := by omega
      rw [Nat.sub_eq_zero_of_le hv2, applyLoop, applyLoop, List.getElem?_eq_none hv2]

/-- The loop when no statement is interrupted: every statement from `v` on is executed, in
order. -/
theorem applyLoop_mysql_ok (env : Env) (statements : List String) :
    ∀ (n v : Nat) (w : World), statements.length - v ≤ n →
      (∀ j, j < statements.length - v → env.interrupt (w.log.length + j) = none) →
      applyLoop (mysql env) statements n v w =
        ((none, v + (statements.length - v)),
          ⟨w.table, w.log ++ statementEvents (statements.drop v)⟩) := by
  intro n
  induction n with
  | zero =>
    intro v w hn _
    have hv : statements.length ≤ v := by omega
    simp [applyLoop, List.drop_of_length_le hv, statementEvents, Nat.sub_eq_zero_of_le hv]
  | succ n ih =>
    intro v w hn hq
    by_cases hv : v < statements.length
    · have h0 := hq 0 (by omega)
      simp only [Nat.add_zero] at h0
      obtain ⟨t, log⟩ := w
      rw [applyLoop, List.getElem?_eq_getElem hv]
      simp only [mysql_exec_eq env _ t log h0, runCall_statement]
      rw [ih (v + 1) _ (by omega)]
      · have hlen : v + 1 + (statements.length - (v + 1)) = v + (statements.length - v) := by
          omega
        rw [hlen, List.drop_eq_getElem_cons hv, statementEvents_cons]
        simp only [List.append_assoc, List.singleton_append]
      · intro j hj
        have := hq (j + 1) (by omega)
        simpa [Nat.add_assoc, Nat.add_comm 1 j] using this
    · have hv2 : statements.length ≤ v := by omega
      rw [applyLoop, List.getElem?_eq_none hv2]
      simp [List.drop_of_length_le hv2, statementEvents, Nat.sub_eq_zero_of_le hv2]

/-- The loop when the statement `j` places after `v` is the first interrupted one: the
statements up to that one are executed and its error is the result. -/
theorem applyLoop_mysql_fail (env : Env) (statements : List String) (e : Err) :
    ∀ (j n v : Nat) (w : World), v + j < statements.length → statements.length - v ≤ n →
      (∀ i, i < j → env.interrupt (w.log.length + i) = none) →
      env.interrupt (w.log.length + j) = some e →
      applyLoop (mysql env) statements n v w =
        ((some e, v + j),
          ⟨w.table, w.log ++ statementEvents ((statements.drop v).take (j + 1))⟩) := by
  intro j
  induction j with
  | zero =>
    intro n v w hv hn _ he
    obtain ⟨k, rfl⟩ : ∃ k, n = k + 1 := ⟨n - 1, by omega⟩
    have hv2 : v < statements.length := by omega
    simp only [Nat.add_zero] at he
    obtain ⟨t, log⟩ := w
    rw [applyLoop, List.getElem?_eq_getElem hv2]
    simp only [mysql_exec_interrupted env _ t log e he]
    rw [List.drop_eq_getElem_cons hv2]
    simp only [List.take_succ_cons, List.take_zero, statementEvents_cons]
    rfl
  | succ j ih =>
    intro n v w hv hn hq he
    obtain ⟨k, rfl⟩ : ∃ k, n = k + 1 := ⟨n - 1, by omega⟩
    have hv2 : v < statements.length := by omega
    have h0 := hq 0 (by omega)
    simp only [Nat.add_zero] at h0
    obtain ⟨t, log⟩ := w
    rw [applyLoop, List.getElem?_eq_getElem hv2]
    simp only [mysql_exec_eq env _ t log h0, runCall_statement]
    rw [ih k (v + 1) _ (by omega) (by omega)]
    · have hlen : v + 1 + j = v + (j + 1) := by omega
      rw [hlen, List.drop_eq_getElem_cons hv2, List.take_succ_cons, statementEvents_cons]
      simp only [List.append_assoc, List.singleton_append]
    · intro i hi
      have := hq (i + 1) (by omega)
      simpa [Nat.add_assoc, Nat.add_comm 1 i] using this
    · simpa [Nat.add_assoc, Nat.add_comm 1 j] using he

/-- The loop under any pattern of interruptions: it executes the first `m` statements from
`v` on, all but the last of which succeeded, and stops short of the end only after a
failed one. -/
theorem applyLoop_mysql_char (env : Env) (statements : List String) (n v : Nat)
    (t : Option MetaTable) (log : List Event) (hn : statements.length - v ≤ n) :
    ∃ m r, m ≤ statements.length - v ∧
      applyLoop (mysql env) statements n v ⟨t, log⟩ =
        (r, ⟨t, log ++ statementEvents ((statements.drop v).take m)⟩) ∧
      (∀ j, j + 1 < m → env.interrupt (log.length + j) = none) ∧
      (m < statements.length - v → 0 < m ∧ env.interrupt (log.length + (m - 1)) ≠ none) := by
  by_cases h : ∃ j, j < statements.length - v ∧ env.interrupt (log.length + j) ≠ none
  · have hspec := Nat.find_spec h
    have hmin := fun k hk => Nat.find_min h (m := k) hk
    generalize Nat.find h = j0 at hspec hmin
    obtain ⟨e, he⟩ := Option.ne_none_iff_exists.mp hspec.2
    have hbefore : ∀ i, i < j0 → env.interrupt (log.length + i) = none := by
      intro i hi
      by_contra hne
      exact hmin i hi ⟨by omega, hne⟩
    refine ⟨j0 + 1, (some e, v + j0), by omega, ?_, ?_, ?_⟩
    · exact applyLoop_mysql_fail env statements e j0 n v ⟨t, log⟩ (by omega) hn hbefore he.symm
    · intro j hj
      exact hbefore j (by omega)
    · intro _
      exact ⟨by omega, by simpa using hspec.2⟩
  · have hall : ∀ j, j < statements.length - v → env.interrupt (log.length + j) = none := by
      intro j hj
      by_contra hne
      exact h ⟨j, hj, hne⟩
    refine ⟨statements.length - v, (none, v + (statements.length - v)), le_refl _, ?_, ?_, ?_⟩
    · rw [applyLoop_mysql_ok env statements n v ⟨t, log⟩ hn hall,
        List.take_of_length_le (by simp)]
    · intro j hj
      exact hall j (by omega)
    · intro hlt
      omega

/-- Lines 45-64 when nothing is interrupted: the statements from `v` on are executed and
the new version is written. -/
theorem migrateFromVersion_mysql_ok (env : Env) (statements : List String) (log : List Event)
    (a l : Option String) (text : String) (v : Nat)
    (hv : parseInt text = some (Int.ofNat v))
    (hq : ∀ j, j < statements.length - v + 2 → env.interrupt (log.length + j) = none) :
    migrateFromVersion (mysql env) statements ⟨some ⟨a, some text, l⟩, log⟩ =
      (Result.returned none,
        ⟨some ⟨a, some (formatInt (Int.ofNat (v + (statements.length - v)))), l⟩,
          log ++ [Event.query Query.selectUserVersion] ++ statementEvents (statements.drop v) ++
            [Event.exec (Call.updateUserVersion (Int.ofNat (v + (statements.length - v))))]⟩) := by
  have h0 := hq 0 (by omega)
  simp only [Nat.add_zero] at h0
  have hloop := applyLoop_mysql_ok env statements (statements.length - v) v
    ⟨some ⟨a, some text, l⟩, log ++ [Event.query Query.selectUserVersion]⟩ (le_refl _)
    (by
      intro j hj
      have := hq (j + 1) (by omega)
      simpa [Nat.add_assoc, Nat.add_comm 1 j] using this)
  have hlast := hq (statements.length - v + 1) (by omega)
  have hlast2 : env.interrupt
      (log ++ [Event.query Query.selectUserVersion] ++ statementEvents (statements.drop v)).length
        = none := by
    simpa [statementEvents, Nat.add_assoc, Nat.add_comm 1] using hlast
  simp only [migrateFromVersion, mysql_query_eq env _ _ log h0, runQuery, hv, hloop]
  simp only [mysql_exec_eq env _ _ _ hlast2, runCall]

/-- Lines 45-64 under any pattern of interruptions after the read of `user_version`. -/
theorem migrateFromVersion_mysql_char (env : Env) (statements : List String) (log : List Event)
    (a l : Option String) (text : String) (v : Nat)
    (hv : parseInt text = some (Int.ofNat v)) (h0 : env.interrupt log.length = none) :
    ∃ m r u tail, m ≤ statements.length - v ∧
      migrateFromVersion (mysql env) statements ⟨some ⟨a, some text, l⟩, log⟩ =
        (r, ⟨some ⟨a, some u, l⟩,
          log ++ [Event.query Query.selectUserVersion] ++
            statementEvents ((statements.drop v).take m) ++ tail⟩) ∧
      statementsOf tail = [] ∧
      (∀ j, j + 1 < m → env.interrupt (log.length + 1 + j) = none) ∧
      (m < statements.length - v →
        0 < m ∧ env.interrupt (log.length + 1 + (m - 1)) ≠ none) := by
  obtain ⟨m, r, hm, hloop, hbefore, hlast⟩ := applyLoop_mysql_char env statements
    (statements.length - v) v (some ⟨a, some text, l⟩)
    (log ++ [Event.query Query.selectUserVersion]) (le_refl _)
  simp only [List.length_append, List.length_singleton] at hbefore hlast
  obtain ⟨err, v1⟩ := r
  cases err with
  | some e =>
    refine ⟨m, Result.returned (some e), text, [], hm, ?_, rfl, hbefore, hlast⟩
    simp only [migrateFromVersion, mysql_query_eq env _ _ log h0, runQuery, hv, hloop,
      List.append_nil]
  | none =>
    obtain ⟨x, u, hx⟩ := mysql_exec_updateUserVersion env (Int.ofNat v1)
      (log ++ [Event.query Query.selectUserVersion] ++
        statementEvents ((statements.drop v).take m)) a l text
    refine ⟨m, (match x with
        | ExecResult.failed e => Result.returned (some e)
        | ExecResult.result _ => Result.returned none), u,
      [Event.exec (Call.updateUserVersion (Int.ofNat v1))], hm, ?_, rfl, hbefore, hlast⟩
    simp only [migrateFromVersion, mysql_query_eq env _ _ log h0, runQuery, hv, hloop, hx]
    cases x <;> rfl

/-- The identity check on an empty stored identity: it is set to the identity of the
caller. -/
theorem migrateLocked_mysql_first (env : Env) (appID : String) (statements : List String)
    (log : List Event) (u l : Option String)
    (h0 : env.interrupt log.length = none) (h1 : env.interrupt (log.length + 1) = none) :
    migrateLocked (mysql env) appID statements ⟨some ⟨some "", u, l⟩, log⟩ =
      migrateFromVersion (mysql env) statements
        ⟨some ⟨some appID, u, l⟩,
          log ++ [Event.query Query.selectAppID, Event.exec (Call.updateAppID appID)]⟩ := by
  have h1b : env.interrupt (log ++ [Event.query Query.selectAppID]).length = none := by
    simpa using h1
  simp only [migrateLocked, mysql_query_eq env _ _ log h0, runQuery, if_true,
    mysql_exec_eq env _ _ _ h1b, runCall, List.append_assoc, List.singleton_append]

/-- The identity check on the identity of the caller. -/
theorem migrateLocked_mysql_same (env : Env) (appID : String) (statements : List String)
    (log : List Event) (u l : Option String) (hid : appID ≠ "")
    (h0 : env.interrupt log.length = none) :
    migrateLocked (mysql env) appID statements ⟨some ⟨some appID, u, l⟩, log⟩ =
      migrateFromVersion (mysql env) statements
        ⟨some ⟨some appID, u, l⟩, log ++ [Event.query Query.selectAppID]⟩ := by
  simp [migrateLocked, mysql_query_eq env _ _ log h0, runQuery, hid]

/-- The identity check on another identity: the mismatch error, and nothing after the
read. -/
theorem migrateLocked_mysql_mismatch (env : Env) (appID cur : String) (statements : List String)
    (log : List Event) (u l : Option String) (hcur : cur ≠ "") (hne : cur ≠ appID)
    (h0 : env.interrupt log.length = none) :
    migrateLocked (mysql env) appID statements ⟨some ⟨some cur, u, l⟩, log⟩ =
      (Result.returned (some Err.invalidAppID),
        ⟨some ⟨some cur, u, l⟩, log ++ [Event.query Query.selectAppID]⟩) := by
  simp [migrateLocked, mysql_query_eq env _ _ log h0, runQuery, hcur, hne]

/-- A successful identity check, in either of its two forms. -/
theorem migrateLocked_mysql_pass (env : Env) (appID cur : String) (statements : List String)
    (log : List Event) (u l : Option String) (hid : appID ≠ "") (hcur : cur = "" ∨ cur = appID)
    (hq : ∀ i, i < 2 → env.interrupt (log.length + i) = none) :
    ∃ pre, statementsOf pre = [] ∧ pre.length + 4 = eventsBeforeStatements cur ∧
      migrateLocked (mysql env) appID statements ⟨some ⟨some cur, u, l⟩, log⟩ =
        migrateFromVersion (mysql env) statements ⟨some ⟨some appID, u, l⟩, log ++ pre⟩ := by
  have h0 := hq 0 (by omega)
  have h1 := hq 1 (by omega)
  simp only [Nat.add_zero] at h0
  rcases hcur with rfl | rfl
  · exact ⟨[Event.query Query.selectAppID, Event.exec (Call.updateAppID appID)], rfl,
      by simp [eventsBeforeStatements],
      migrateLocked_mysql_first env appID statements log u l h0 h1⟩
  · exact ⟨[Event.query Query.selectAppID], rfl, by simp [eventsBeforeStatements, hid],
      migrateLocked_mysql_same env cur statements log u l hid h0⟩

/-- The part of `Migrate` before the locked section, on an unlocked store: three events,
then the locked section and the deferred release. -/
theorem Migrate_mysql_locked (env : Env) (fuel : Nat) (appID : String) (statements : List String)
    (t : Option MetaTable) (log : List Event) (a u : String)
    (hid : appID ≠ "") (hfuel : 0 < fuel)
    (ht : insertIgnoreDefaults (t.getD ⟨none, none, none⟩) = ⟨some a, some u, some "false"⟩)
    (hpre : ∀ i, i < 3 → env.interrupt (log.length + i) = none) :
    Migrate (mysql env) fuel appID statements ⟨t, log⟩ =
      deferredRelease (mysql env) fuel
        (migrateLocked (mysql env) appID statements
          ⟨some ⟨some a, some u, some "true"⟩,
            log ++ [Event.exec Call.createMeta, Event.exec Call.insertDefaults,
              Event.exec (Call.updateLocked "true" "false")]⟩) := by
  obtain ⟨k, rfl⟩ : ∃ k, fuel = k + 1 := ⟨fuel - 1, by omega⟩
  have h0 := hpre 0 (by omega)
  have h1 := hpre 1 (by omega)
  have h2 := hpre 2 (by omega)
  simp only [Nat.add_zero] at h0
  have hacq := acquire_mysql env k
    (log ++ [Event.exec Call.createMeta, Event.exec Call.insertDefaults]) (some a) (some u)
    (by simpa using h2)
  simp only [Migrate, if_neg hid, ensureMetatable_mysql env log _ h0 h1, ht, hacq,
    List.append_assoc, List.cons_append, List.nil_append]

/-- A run of `Migrate` in which nothing is interrupted. -/
theorem Migrate_mysql_success (env : Env) (fuel : Nat) (appID : String)
    (statements : List String) (t : Option MetaTable) (log : List Event) (cur text : String)
    (v : Nat) (hid : appID ≠ "") (hfuel : 0 < fuel)
    (ht : insertIgnoreDefaults (t.getD ⟨none, none, none⟩) =
      ⟨some cur, some text, some "false"⟩)
    (hcur : cur = "" ∨ cur = appID) (hv : parseInt text = some (Int.ofNat v))
    (hq : ∀ i, log.length ≤ i → env.interrupt i = none) :
    ∃ pre tail, statementsOf pre = [] ∧ statementsOf tail = [] ∧
      Migrate (mysql env) fuel appID statements ⟨t, log⟩ =
        (Result.returned none,
          ⟨some ⟨some appID, some (formatInt (Int.ofNat (v + (statements.length - v)))),
              some "false"⟩,
            log ++ pre ++ statementEvents (statements.drop v) ++ tail⟩) := by
  rw [Migrate_mysql_locked env fuel appID statements t log cur text hid hfuel ht
    (fun i _ => hq _ (by omega))]
  obtain ⟨pre, hpre, _, hpass⟩ := migrateLocked_mysql_pass env appID cur statements
    (log ++ [Event.exec Call.createMeta, Event.exec Call.insertDefaults,
      Event.exec (Call.updateLocked "true" "false")]) (some text) (some "true") hid hcur
    (fun i _ => hq _ (by simp; omega))
  rw [hpass, migrateFromVersion_mysql_ok env statements _ _ _ text v hv
    (fun j _ => hq _ (by simp; omega))]
  obtain ⟨l, hrel, hl⟩ := deferredRelease_mysql env fuel
    (log ++ [Event.exec Call.createMeta, Event.exec Call.insertDefaults,
      Event.exec (Call.updateLocked "true" "false")] ++ pre ++
      [Event.query Query.selectUserVersion] ++ statementEvents (statements.drop v) ++
      [Event.exec (Call.updateUserVersion (Int.ofNat (v + (statements.length - v))))])
    (some appID) (some (formatInt (Int.ofNat (v + (statements.length - v)))))
    (Result.returned none) hfuel
  rw [hl (hq _ (by simp only [List.length_append]; omega))] at hrel
  refine ⟨[Event.exec Call.createMeta, Event.exec Call.insertDefaults,
      Event.exec (Call.updateLocked "true" "false")] ++ pre ++
      [Event.query Query.selectUserVersion],
    [Event.exec (Call.updateUserVersion (Int.ofNat (v + (statements.length - v)))),
      Event.exec (Call.updateLocked "false" "true")], ?_, rfl, ?_⟩
  · simp [statementsOf_append, hpre, statementsOf]
  · rw [hrel]
    simp only [List.append_assoc, List.cons_append, List.nil_append]

/-! ## The polling loop against a script -/

/-- One round of the polling loop against a script. -/
theorem setLogicalLock_scripted_step (replies : Nat → ExecResult)
    (rows : Nat → Except Err String) (ticks : Nat → Option Err) (desired : Bool)
    (fuel : Nat) (s : Script) :
    setLogicalLock (scripted replies rows ticks) desired (fuel + 1) s =
      match replies s.execs with
      | ExecResult.failed e =>
        (some (some e), ⟨s.execs + 1, s.queries, s.waits, s.log ++
          [Event.exec (Call.updateLocked (boolToString desired) (boolToString (!desired)))]⟩)
      | ExecResult.result (Except.error e) =>
        (some (some e), ⟨s.execs + 1, s.queries, s.waits, s.log ++
          [Event.exec (Call.updateLocked (boolToString desired) (boolToString (!desired)))]⟩)
      | ExecResult.result (Except.ok affected) =>
        if affected = 1 then
          (some none, ⟨s.execs + 1, s.queries, s.waits, s.log ++
            [Event.exec (Call.updateLocked (boolToString desired) (boolToString (!desired)))]⟩)
        else
          match ticks s.waits with
          | some e =>
            (some (some e), ⟨s.execs + 1, s.queries, s.waits + 1, s.log ++
              [Event.exec (Call.updateLocked (boolToString desired) (boolToString (!desired))),
                Event.wait]⟩)
          | none =>
            setLogicalLock (scripted replies rows ticks) desired fuel
              ⟨s.execs + 1, s.queries, s.waits + 1, s.log ++
                [Event.exec (Call.updateLocked (boolToString desired) (boolToString (!desired))),
                  Event.wait]⟩ := by
  rw [setLogicalLock]
  simp only [scripted]
  cases replies s.execs with
  | failed e => rfl
  | result r =>
    cases r with
    | error e => rfl
    | ok affected =>
      simp only
      split
      · rfl
      · cases ticks s.waits <;> simp

/-- After `k` rounds that each report a count other than one and end with a tick, the loop
is where it started, `k` replies and `k` ticks further. -/
theorem setLogicalLock_scripted_retry (replies : Nat → ExecResult)
    (rows : Nat → Except Err String) (ticks : Nat → Option Err) (desired : Bool) :
    ∀ (k fuel : Nat) (s : Script),
      (∀ j, j < k → (∃ n, n ≠ 1 ∧ replies (s.execs + j) = ExecResult.result (Except.ok n)) ∧
        ticks (s.waits + j) = none) →
      setLogicalLock (scripted replies rows ticks) desired (fuel + k) s =
        setLogicalLock (scripted replies rows ticks) desired fuel
          ⟨s.execs + k, s.queries, s.waits + k, s.log ++ pollEvents desired k⟩ := by
  intro k
  induction k with
  | zero =>
    intro fuel s _
    simp [pollEvents]
  | succ k ih =>
    intro fuel s h
    obtain ⟨⟨n, hn, hrep⟩, htick⟩ := h 0 (by omega)
    simp only [Nat.add_zero] at hrep htick
    rw [← Nat.add_assoc, setLogicalLock]
    simp only [scripted, hrep, hn, if_false, htick]
    have := ih fuel ⟨s.execs + 1, s.queries, s.waits + 1,
      s.log ++ [Event.exec (Call.updateLocked (boolToString desired) (boolToString (!desired)))]
        ++ [Event.wait]⟩
      (by
        intro j hj
        have := h (j + 1) (by omega)
        simpa [Nat.add_assoc, Nat.add_comm 1 j] using this)
    simp only [scripted] at this
    rw [this]
    simp [pollEvents, Nat.add_assoc, Nat.add_comm 1 k]

/-- When the loop returns success, some attempt reported one row and every attempt before
it reported another count and was followed by a tick. -/
theorem setLogicalLock_scripted_success (replies : Nat → ExecResult)
    (rows : Nat → Except Err String) (ticks : Nat → Option Err) (desired : Bool) :
    ∀ (fuel : Nat) (s : Script),
      (setLogicalLock (scripted replies rows ticks) desired fuel s).1 = some none →
      ∃ i, replies (s.execs + i) = ExecResult.result (Except.ok 1) ∧
        ∀ j, j < i → (∃ n, n ≠ 1 ∧ replies (s.execs + j) = ExecResult.result (Except.ok n)) ∧
          ticks (s.waits + j) = none := by
  intro fuel
  induction fuel with
  | zero =>
    intro s h
    simp [setLogicalLock] at h
  | succ fuel ih =>
    intro s h
    rw [setLogicalLock_scripted_step] at h
    cases hrep : replies s.execs with
    | failed e => simp [hrep] at h
    | result r =>
      cases r with
      | error e => simp [hrep] at h
      | ok affected =>
        simp only [hrep] at h
        by_cases h1 : affected = 1
        · subst h1
          exact ⟨0, by simpa using hrep, fun j hj => by omega⟩
        · simp only [h1, if_false] at h
          cases htick : ticks s.waits with
          | some e => simp [htick] at h
          | none =>
            simp only [htick] at h
            obtain ⟨i, hi, hbefore⟩ := ih _ h
            simp only at hi hbefore
            refine ⟨i + 1, by simpa [Nat.add_assoc, Nat.add_comm 1 i] using hi, ?_⟩
            intro j hj
            cases j with
            | zero => exact ⟨⟨affected, h1, by simpa using hrep⟩, by simpa using htick⟩
            | succ j =>
              have := hbefore j (by omega)
              simpa [Nat.add_assoc, Nat.add_comm 1 j] using this

/-- The loop after `i` zero-row attempts, each followed by a tick. -/
theorem setLogicalLock_scripted_at (replies : Nat → ExecResult)
    (rows : Nat → Except Err String) (ticks : Nat → Option Err) (desired : Bool)
    (i fuel : Nat) (hfuel : i < fuel)
    (h : ∀ j, j < i → replies j = ExecResult.result (Except.ok 0) ∧ ticks j = none) :
    setLogicalLock (scripted replies rows ticks) desired fuel Script.start =
      setLogicalLock (scripted replies rows ticks) desired (fuel - i)
        ⟨i, 0, i, pollEvents desired i⟩ := by
  have := setLogicalLock_scripted_retry replies rows ticks desired i (fuel - i) Script.start
    (by
      intro j hj
      obtain ⟨h1, h2⟩ := h j hj
      exact ⟨⟨0, by decide, by simpa [Script.start] using h1⟩, by simpa [Script.start] using h2⟩)
  rw [Nat.sub_add_cancel (by omega)] at this
  simpa [Script.start] using this

/-! ## Repeated runs and fresh databases -/

/-- C1: for `v1 ≤ v2`, a non-empty identity and a statement list `s` of length `v2`,
starting from a freshly bootstrapped store and with every database operation succeeding,
`Migrate` with the first `v1` elements of `s` and then `Migrate` with `s` both return
success, and the second call executes exactly `s[v1], ..., s[v2-1]` (the list `s.drop v1`),
so none of `s[0..v1)`; with `v1 = v2` the second call executes no statement. -/
theorem Migrate_twice_runs_new_suffix (env : Env) (fuel : Nat) (appID : String)
    (s : List String) (v1 : Nat) (w : World)
    (hid : appID ≠ "") (hfuel : 0 < fuel) (hv : v1 ≤ s.length)
    (hlen : s.length < 2 ^ (intBits - 1))
    (hfresh : w.table = some MetaTable.defaults)
    (hq : ∀ i, w.log.length ≤ i → env.interrupt i = none) :
    (Migrate (mysql env) fuel appID (s.take v1) w).1 = Result.returned none ∧
      (Migrate (mysql env) fuel appID s
        (Migrate (mysql env) fuel appID (s.take v1) w).2).1 = Result.returned none ∧
      statementsOf
        ((Migrate (mysql env) fuel appID s
            (Migrate (mysql env) fuel appID (s.take v1) w).2).2.since
          (Migrate (mysql env) fuel appID (s.take v1) w).2) = s.drop v1 ∧
      (v1 = s.length →
        statementsOf
          ((Migrate (mysql env) fuel appID s
              (Migrate (mysql env) fuel appID (s.take v1) w).2).2.since
            (Migrate (mysql env) fuel appID (s.take v1) w).2) = []) := by
  obtain ⟨t, log⟩ := w
  simp only at hfresh hq
  subst hfresh
  obtain ⟨pre, tail, _, _, h⟩ := Migrate_mysql_success env fuel appID (s.take v1)
    (some MetaTable.defaults) log "" "0" 0 hid hfuel rfl (Or.inl rfl) (by decide) hq
  have hlen1 : 0 + ((s.take v1).length - 0) = v1 := by
    simp only [List.length_take]
    omega
  rw [hlen1] at h
  obtain ⟨pre2, tail2, hp2, ht2, h2⟩ := Migrate_mysql_success env fuel appID s
    (some ⟨some appID, some (formatInt (Int.ofNat v1)), some "false"⟩)
    (log ++ pre ++ statementEvents ((s.take v1).drop 0) ++ tail) appID
    (formatInt (Int.ofNat v1)) v1 hid hfuel rfl (Or.inr rfl)
    (parseInt_formatInt v1 (by omega))
    (fun i hi => hq i (by simp only [List.length_append] at hi; omega))
  rw [h, h2]
  have hsince : statementsOf (World.since
      ⟨some ⟨some appID, some (formatInt (Int.ofNat (v1 + (s.length - v1)))), some "false"⟩,
        log ++ pre ++ statementEvents ((s.take v1).drop 0) ++ tail ++ pre2 ++
          statementEvents (s.drop v1) ++ tail2⟩
      ⟨some ⟨some appID, some (formatInt (Int.ofNat v1)), some "false"⟩,
        log ++ pre ++ statementEvents ((s.take v1).drop 0) ++ tail⟩) = s.drop v1 := by
    rw [List.append_assoc (log ++ pre ++ statementEvents ((s.take v1).drop 0) ++ tail),
      List.append_assoc (log ++ pre ++ statementEvents ((s.take v1).drop 0) ++ tail),
      since_append]
    simp [statementsOf_append, hp2, ht2, statementsOf_statementEvents]
  refine ⟨rfl, rfl, hsince, ?_⟩
  intro hv1
  rw [hsince, hv1, List.drop_length]

/-- Witness of `Migrate_twice_runs_new_suffix`: one statement first, then two. -/
theorem Migrate_twice_runs_new_suffix_witness :
    ("app1" ≠ "" ∧ 0 < 1 ∧ 1 ≤ exampleStatements.length ∧
      exampleStatements.length < 2 ^ (intBits - 1) ∧
      World.fresh.table = some MetaTable.defaults ∧
      (∀ i, World.fresh.log.length ≤ i → Env.quiet.interrupt i = none)) ∧
    ((Migrate (mysql Env.quiet) 1 "app1" (exampleStatements.take 1) World.fresh).1 =
        Result.returned none ∧
      (Migrate (mysql Env.quiet) 1 "app1" exampleStatements
        (Migrate (mysql Env.quiet) 1 "app1" (exampleStatements.take 1) World.fresh).2).1 =
        Result.returned none ∧
      statementsOf
        ((Migrate (mysql Env.quiet) 1 "app1" exampleStatements
            (Migrate (mysql Env.quiet) 1 "app1" (exampleStatements.take 1)
              World.fresh).2).2.since
          (Migrate (mysql Env.quiet) 1 "app1" (exampleStatements.take 1) World.fresh).2) =
        exampleStatements.drop 1 ∧
      (1 = exampleStatements.length →
        statementsOf
          ((Migrate (mysql Env.quiet) 1 "app1" exampleStatements
              (Migrate (mysql Env.quiet) 1 "app1" (exampleStatements.take 1)
                World.fresh).2).2.since
            (Migrate (mysql Env.quiet) 1 "app1" (exampleStatements.take 1) World.fresh).2) =
          [])) :=
  ⟨⟨by decide, by decide, by decide, by decide, rfl, fun _ _ => rfl⟩,
    Migrate_twice_runs_new_suffix Env.quiet 1 "app1" exampleStatements 1 World.fresh
      (by decide) (by decide) (by decide) (by decide) rfl (fun _ _ => rfl)⟩

/-- C8: for every non-empty identity and every statement list of length `n`, with the
statements and the bookkeeping operations all executing successfully, `Migrate` on a
fresh database (rows at their defaults) returns success and leaves `application_id` equal
to the identity, `user_version` equal to the decimal text of `n` and `locked = "false"`. -/
theorem Migrate_fresh_database (env : Env) (fuel : Nat) (appID : String)
    (statements : List String) (w : World)
    (hid : appID ≠ "") (hfuel : 0 < fuel)
    (hfresh : w.table = some MetaTable.defaults)
    (hq : ∀ i, w.log.length ≤ i → env.interrupt i = none) :
    (Migrate (mysql env) fuel appID statements w).1 = Result.returned none ∧
      (Migrate (mysql env) fuel appID statements w).2.table =
        some ⟨some appID, some (toString statements.length), some "false"⟩ := by
  obtain ⟨t, log⟩ := w
  simp only at hfresh hq
  subst hfresh
  obtain ⟨pre, tail, _, _, h⟩ := Migrate_mysql_success env fuel appID statements
    (some MetaTable.defaults) log "" "0" 0 hid hfuel rfl (Or.inl rfl) (by decide) hq
  rw [h]
  refine ⟨rfl, ?_⟩
  simp only [Nat.zero_add, Nat.sub_zero]
  rfl

/-- Witness of `Migrate_fresh_database`: identity `app1` and two statements on the default
rows. -/
theorem Migrate_fresh_database_witness :
    ("app1" ≠ "" ∧ 0 < 1 ∧
      World.fresh.table = some MetaTable.defaults ∧
      (∀ i, World.fresh.log.length ≤ i →
        Env.quiet.interrupt i = none)) ∧
    ((Migrate (mysql Env.quiet) 1 "app1"
        exampleStatements
        World.fresh).1 = Result.returned none ∧
      (Migrate (mysql Env.quiet) 1 "app1"
        exampleStatements
        World.fresh).2.table =
          some ⟨some "app1", some "2", some "false"⟩) :=
  ⟨⟨by decide, by decide, rfl, fun _ _ => rfl⟩,
    Migrate_fresh_database Env.quiet 1 "app1"
      exampleStatements
      World.fresh (by decide) (by decide) rfl (fun _ _ => rfl)⟩

/-! ## Statement order and the checkpoint -/

/-- C3: for every stored `user_version` `v ≥ 0`, every statement list and every pattern
of statement successes and failures, one `Migrate` call whose identity check succeeds
executes exactly `m` statements for some `m ≤ len - v`, namely `s[v], s[v+1], ...,
s[v+m-1]` in list order at consecutive events (no statement of index below `v`, no gap,
no repeat); every executed statement but the last one succeeded, and when `m` stops short
of the end of the list the last executed statement is one that failed. -/
theorem Migrate_runs_statements_in_order (env : Env) (fuel : Nat) (appID : String)
    (statements : List String) (w : World) (cur text : String) (v : Nat)
    (hid : appID ≠ "") (hfuel : 0 < fuel)
    (htable : w.table = some ⟨some cur, some text, some "false"⟩)
    (hcur : cur = "" ∨ cur = appID)
    (hv : parseInt text = some (Int.ofNat v))
    (hq : ∀ i, i < eventsBeforeStatements cur → env.interrupt (w.log.length + i) = none) :
    ∃ m, m ≤ statements.length - v ∧
      statementsOf ((Migrate (mysql env) fuel appID statements w).2.since w) =
        (statements.drop v).take m ∧
      (∀ j, j < m →
        (Migrate (mysql env) fuel appID statements w).2.log[
            w.log.length + eventsBeforeStatements cur + j]? =
          (statements[v + j]?).map (fun text => Event.exec (Call.statement text))) ∧
      (∀ j, j + 1 < m →
        env.interrupt (w.log.length + eventsBeforeStatements cur + j) = none) ∧
      (m < statements.length - v →
        0 < m ∧ env.interrupt (w.log.length + eventsBeforeStatements cur + (m - 1)) ≠ none) := by
  obtain ⟨t, log⟩ := w
  simp only at htable hq
  subst htable
  have hbase : 5 ≤ eventsBeforeStatements cur := by
    unfold eventsBeforeStatements
    split <;> omega
  rw [Migrate_mysql_locked env fuel appID statements
    (some ⟨some cur, some text, some "false"⟩) log cur text hid hfuel rfl
    (fun i _ => hq i (by omega))]
  obtain ⟨pre, hpre, hprelen, hpass⟩ := migrateLocked_mysql_pass env appID cur statements
    (log ++ [Event.exec Call.createMeta, Event.exec Call.insertDefaults,
      Event.exec (Call.updateLocked "true" "false")]) (some text) (some "true") hid hcur
    (fun i _ => by
      have := hq (3 + i) (by omega)
      simpa [Nat.add_assoc] using this)
  obtain ⟨m, r, u, tail, hm, hrun, htail, hbefore, hlast⟩ :=
    migrateFromVersion_mysql_char env statements
      (log ++ [Event.exec Call.createMeta, Event.exec Call.insertDefaults,
        Event.exec (Call.updateLocked "true" "false")] ++ pre)
      (some appID) (some "true") text v hv
      (by
        have := hq (3 + pre.length) (by omega)
        simpa [Nat.add_assoc, Nat.add_comm 3] using this)
  obtain ⟨l, hrel, _⟩ := deferredRelease_mysql env fuel
    (log ++ [Event.exec Call.createMeta, Event.exec Call.insertDefaults,
        Event.exec (Call.updateLocked "true" "false")] ++ pre ++
      [Event.query Query.selectUserVersion] ++
      statementEvents ((statements.drop v).take m) ++ tail) (some appID) (some u) r hfuel
  rw [hpass, hrun, hrel]
  have hlen : (log ++ [Event.exec Call.createMeta, Event.exec Call.insertDefaults,
        Event.exec (Call.updateLocked "true" "false")] ++ pre).length + 1 =
      log.length + eventsBeforeStatements cur := by
    simp only [List.length_append, List.length_cons, List.length_nil]
    omega
  simp only [hlen] at hbefore hlast
  have hshape : log ++ [Event.exec Call.createMeta, Event.exec Call.insertDefaults,
        Event.exec (Call.updateLocked "true" "false")] ++ pre ++
      [Event.query Query.selectUserVersion] ++
      statementEvents ((statements.drop v).take m) ++ tail ++
      [Event.exec (Call.updateLocked "false" "true")] =
      (log ++ ([Event.exec Call.createMeta, Event.exec Call.insertDefaults,
        Event.exec (Call.updateLocked "true" "false")] ++ pre ++
      [Event.query Query.selectUserVersion])) ++
      statementEvents ((statements.drop v).take m) ++
      (tail ++ [Event.exec (Call.updateLocked "false" "true")]) := by
    simp only [List.append_assoc]
  have hplen : (log ++ ([Event.exec Call.createMeta, Event.exec Call.insertDefaults,
        Event.exec (Call.updateLocked "true" "false")] ++ pre ++
      [Event.query Query.selectUserVersion])).length =
      log.length + eventsBeforeStatements cur := by
    simp only [List.length_append, List.length_cons, List.length_nil]
    omega
  refine ⟨m, hm, ?_, ?_, hbefore, hlast⟩
  · rw [hshape]
    simp only [List.append_assoc]
    rw [since_append]
    simp [statementsOf_append, hpre, htail, statementsOf_statementEvents, statementsOf]
  · intro j hj
    simp only
    rw [hshape, ← hplen, getElem?_middle _ _ _ j
      (by rw [statementEvents_length, List.length_take, List.length_drop]; omega)]
    exact statementEvents_take_drop_getElem? statements v m j hj

/-- Witness of `Migrate_runs_statements_in_order`: a store at version 0 owned by `app1`,
and a driver error at event 6, the second statement. -/
theorem Migrate_runs_statements_in_order_witness :
    ("app1" ≠ "" ∧ 0 < 1 ∧
      (World.unlocked "app1" "0").table =
        some ⟨some "app1", some "0", some "false"⟩ ∧
      ("app1" = "" ∨ "app1" = "app1") ∧ parseInt "0" = some (Int.ofNat 0) ∧
      (∀ i, i < eventsBeforeStatements "app1" →
        (Env.failAt 6 (Err.driver "syntax error")).interrupt
          ((World.unlocked "app1" "0").log.length + i) = none)) ∧
    (∃ m, m ≤ exampleStatements.length - 0 ∧
      statementsOf ((Migrate (mysql (Env.failAt 6 (Err.driver "syntax error"))) 1 "app1"
          exampleStatements (World.unlocked "app1" "0")).2.since
          (World.unlocked "app1" "0")) =
        (exampleStatements.drop 0).take m ∧
      (∀ j, j < m →
        (Migrate (mysql (Env.failAt 6 (Err.driver "syntax error"))) 1 "app1"
          exampleStatements (World.unlocked "app1" "0")).2.log[
            (World.unlocked "app1" "0").log.length +
              eventsBeforeStatements "app1" + j]? =
          (exampleStatements[0 + j]?).map (fun text => Event.exec (Call.statement text))) ∧
      (∀ j, j + 1 < m →
        (Env.failAt 6 (Err.driver "syntax error")).interrupt
          ((World.unlocked "app1" "0").log.length +
            eventsBeforeStatements "app1" + j) = none) ∧
      (m < exampleStatements.length - 0 →
        0 < m ∧ (Env.failAt 6 (Err.driver "syntax error")).interrupt
          ((World.unlocked "app1" "0").log.length +
            eventsBeforeStatements "app1" + (m - 1)) ≠ none)) :=
  ⟨⟨by decide, by decide, rfl, Or.inr rfl, by decide, by decide⟩,
    Migrate_runs_statements_in_order (Env.failAt 6 (Err.driver "syntax error")) 1 "app1"
      exampleStatements (World.unlocked "app1" "0") "app1" "0" 0
      (by decide) (by decide) rfl (Or.inr rfl) (by decide) (by decide)⟩

/-- C2 fails on the code: on a fresh store the first statement succeeds and the second
one fails; `Migrate` returns that error, and the stored `user_version` is still `"0"`, not
`"1"`: the `return err` inside the loop leaves before the checkpoint is written.  The
next call therefore executes the first statement again. -/
theorem Migrate_failed_statement_skips_checkpoint :
    Migrate (mysql (Env.failAt 7 (Err.driver "syntax error"))) 1 "app1" exampleStatements
        World.fresh =
      (Result.returned (some (Err.driver "syntax error")),
        ⟨some ⟨some "app1", some "0", some "false"⟩,
          [Event.exec Call.createMeta, Event.exec Call.insertDefaults,
            Event.exec (Call.updateLocked "true" "false"), Event.query Query.selectAppID,
            Event.exec (Call.updateAppID "app1"), Event.query Query.selectUserVersion,
            Event.exec (Call.statement "create table t (id int)"),
            Event.exec (Call.statement "alter table t add column name text"),
            Event.exec (Call.updateLocked "false" "true")]⟩) ∧
      statementsOf
        ((Migrate (mysql Env.quiet) 1 "app1" exampleStatements
            (Migrate (mysql (Env.failAt 7 (Err.driver "syntax error"))) 1 "app1"
              exampleStatements World.fresh).2).2.since
          (Migrate (mysql (Env.failAt 7 (Err.driver "syntax error"))) 1 "app1"
            exampleStatements World.fresh).2) = exampleStatements := by
  decide

/-! ## The identity check -/

/-- C4: for every store whose `application_id` is a non-empty `A`, every non-empty identity
`B` different from `A` and every statement list, `Migrate` (bootstrap, lock acquisition and
the read of `application_id` succeeding) returns the identity-mismatch error, executes
none of the supplied statements and leaves the stored `application_id` and `user_version`
unchanged; when the release is not interrupted either, the whole table is as before. -/
theorem Migrate_identity_mismatch (env : Env) (fuel : Nat) (A B u : String)
    (statements : List String) (w : World)
    (hA : A ≠ "") (hB : B ≠ "") (hAB : B ≠ A) (hfuel : 0 < fuel)
    (htable : w.table = some ⟨some A, some u, some "false"⟩)
    (hq : ∀ i, i < 4 → env.interrupt (w.log.length + i) = none) :
    (Migrate (mysql env) fuel B statements w).1 = Result.returned (some Err.invalidAppID) ∧
      statementsOf ((Migrate (mysql env) fuel B statements w).2.since w) = [] ∧
      (∃ l, (Migrate (mysql env) fuel B statements w).2.table =
        some ⟨some A, some u, some l⟩) ∧
      (env.interrupt (w.log.length + 4) = none →
        (Migrate (mysql env) fuel B statements w).2.table = w.table) := by
  obtain ⟨t, log⟩ := w
  simp only at htable hq
  subst htable
  rw [Migrate_mysql_locked env fuel B statements
    (some ⟨some A, some u, some "false"⟩) log A u hB hfuel rfl (fun i _ => hq i (by omega))]
  rw [migrateLocked_mysql_mismatch env B A statements _ (some u) (some "true") hA
    (fun h => hAB h.symm) (by simpa using hq 3 (by omega))]
  obtain ⟨l, hrel, hl⟩ := deferredRelease_mysql env fuel
    (log ++ [Event.exec Call.createMeta, Event.exec Call.insertDefaults,
        Event.exec (Call.updateLocked "true" "false")] ++ [Event.query Query.selectAppID])
    (some A) (some u) (Result.returned (some Err.invalidAppID)) hfuel
  rw [hrel]
  refine ⟨rfl, ?_, ⟨l, rfl⟩, ?_⟩
  · simp only [List.append_assoc]
    rw [since_append]
    rfl
  · intro h
    rw [hl (by simpa using h)]

/-- Witness of `Migrate_identity_mismatch`: a store of `app1` at version 1, called with
identity `app2`. -/
theorem Migrate_identity_mismatch_witness :
    ("app1" ≠ "" ∧ "app2" ≠ "" ∧ "app2" ≠ "app1" ∧ 0 < 1 ∧
      (World.unlocked "app1" "1").table =
        some ⟨some "app1", some "1", some "false"⟩ ∧
      (∀ i, i < 4 → Env.quiet.interrupt
        ((World.unlocked "app1" "1").log.length + i) = none)) ∧
    ((Migrate (mysql Env.quiet) 1 "app2" exampleStatements
        (World.unlocked "app1" "1")).1 =
        Result.returned (some Err.invalidAppID) ∧
      statementsOf ((Migrate (mysql Env.quiet) 1 "app2" exampleStatements
        (World.unlocked "app1" "1")).2.since
        (World.unlocked "app1" "1")) = [] ∧
      (∃ l, (Migrate (mysql Env.quiet) 1 "app2" exampleStatements
        (World.unlocked "app1" "1")).2.table =
        some ⟨some "app1", some "1", some l⟩) ∧
      (Env.quiet.interrupt
          ((World.unlocked "app1" "1").log.length + 4) = none →
        (Migrate (mysql Env.quiet) 1 "app2" exampleStatements
          (World.unlocked "app1" "1")).2.table =
          (World.unlocked "app1" "1").table)) :=
  ⟨⟨by decide, by decide, by decide, by decide, rfl, fun _ _ => rfl⟩,
    Migrate_identity_mismatch Env.quiet 1 "app1" "app2" "1" exampleStatements
      (World.unlocked "app1" "1") (by decide) (by decide) (by decide)
      (by decide) rfl (fun _ _ => rfl)⟩

/-- C10: with the empty application identity `Migrate` panics and hands back the state of
the outside world as it received it, for every driver, statement list and state: no query
or execute call was issued (each would have been recorded in the log of the database
driver) and the store is unchanged. -/
theorem Migrate_empty_identity_panics {σ : Type} (D : Driver σ) (env : Env) (fuel : Nat)
    (statements : List String) (s : σ) (w : World) :
    Migrate D fuel "" statements s =
        (Result.panicked "migrate: invalid params: appID can't be empty string", s) ∧
      (Migrate (mysql env) fuel "" statements w).2.log = w.log ∧
      (Migrate (mysql env) fuel "" statements w).2.table = w.table := by
  simp [Migrate]

/-! ## The logical lock -/

/-- C7: for every sequence of outcomes of the conditional update of the locked row from
`"false"` to `"true"` (each reported count being 0 or 1, the row being unique),
Acquire returns success exactly when an attempt reports one row affected and every earlier
attempt reported zero rows and was followed by a tick; after `i` such zero-row attempts,
each followed by one wait, a one-row report ends it with success, an execution error ends
it at once with that error, and a cancellation during the wait ends it with the
cancellation error; and when Acquire fails inside `Migrate`, `Migrate` returns that error
in the state Acquire left, so no release is attempted. -/
theorem Acquire_outcomes (replies : Nat → ExecResult) (rows : Nat → Except Err String)
    (ticks : Nat → Option Err)
    (hpk : ∀ i n, replies i = ExecResult.result (Except.ok n) → n = 0 ∨ n = 1) :
    ((∃ fuel, (setLogicalLock (scripted replies rows ticks) true fuel Script.start).1 =
          some none) ↔
        ∃ i, replies i = ExecResult.result (Except.ok 1) ∧
          ∀ j, j < i → replies j = ExecResult.result (Except.ok 0) ∧ ticks j = none) ∧
      (∀ i, (∀ j, j < i → replies j = ExecResult.result (Except.ok 0) ∧ ticks j = none) →
        (replies i = ExecResult.result (Except.ok 1) → ∀ fuel, i < fuel →
          setLogicalLock (scripted replies rows ticks) true fuel Script.start =
            (some none, ⟨i + 1, 0, i,
              pollEvents true i ++ [Event.exec (Call.updateLocked "true" "false")]⟩)) ∧
        (∀ e, replies i = ExecResult.failed e ∨
            replies i = ExecResult.result (Except.error e) → ∀ fuel, i < fuel →
          setLogicalLock (scripted replies rows ticks) true fuel Script.start =
            (some (some e), ⟨i + 1, 0, i,
              pollEvents true i ++ [Event.exec (Call.updateLocked "true" "false")]⟩)) ∧
        (∀ e, replies i = ExecResult.result (Except.ok 0) → ticks i = some e →
          ∀ fuel, i < fuel →
          setLogicalLock (scripted replies rows ticks) true fuel Script.start =
            (some (some e), ⟨i + 1, 0, i + 1,
              pollEvents true i ++
                [Event.exec (Call.updateLocked "true" "false"), Event.wait]⟩))) ∧
      (∀ (σ : Type) (D : Driver σ) (fuel : Nat) (appID : String) (statements : List String)
          (s s1 s2 : σ) (e : Err), appID ≠ "" → ensureMetatable D s = (none, s1) →
        setLogicalLock D true fuel s1 = (some (some e), s2) →
        Migrate D fuel appID statements s = (Result.returned (some e), s2)) := by
  have hat : ∀ i, (∀ j, j < i → replies j = ExecResult.result (Except.ok 0) ∧ ticks j = none) →
      (replies i = ExecResult.result (Except.ok 1) → ∀ fuel, i < fuel →
        setLogicalLock (scripted replies rows ticks) true fuel Script.start =
          (some none, ⟨i + 1, 0, i,
            pollEvents true i ++ [Event.exec (Call.updateLocked "true" "false")]⟩)) ∧
      (∀ e, replies i = ExecResult.failed e ∨
          replies i = ExecResult.result (Except.error e) → ∀ fuel, i < fuel →
        setLogicalLock (scripted replies rows ticks) true fuel Script.start =
          (some (some e), ⟨i + 1, 0, i,
            pollEvents true i ++ [Event.exec (Call.updateLocked "true" "false")]⟩)) ∧
      (∀ e, replies i = ExecResult.result (Except.ok 0) → ticks i = some e →
        ∀ fuel, i < fuel →
        setLogicalLock (scripted replies rows ticks) true fuel Script.start =
          (some (some e), ⟨i + 1, 0, i + 1,
            pollEvents true i ++
              [Event.exec (Call.updateLocked "true" "false"), Event.wait]⟩)) := by
    intro i hbefore
    refine ⟨?_, ?_, ?_⟩
    · intro hrep fuel hfuel
      obtain ⟨k, hk⟩ : ∃ k, fuel - i = k + 1 := ⟨fuel - i - 1, by omega⟩
      rw [setLogicalLock_scripted_at replies rows ticks true i fuel hfuel hbefore, hk,
        setLogicalLock_scripted_step]
      simp [hrep, boolToString]
    · intro e hrep fuel hfuel
      obtain ⟨k, hk⟩ : ∃ k, fuel - i = k + 1 := ⟨fuel - i - 1, by omega⟩
      rw [setLogicalLock_scripted_at replies rows ticks true i fuel hfuel hbefore, hk,
        setLogicalLock_scripted_step]
      rcases hrep with hrep | hrep <;> simp [hrep, boolToString]
    · intro e hrep htick fuel hfuel
      obtain ⟨k, hk⟩ : ∃ k, fuel - i = k + 1 := ⟨fuel - i - 1, by omega⟩
      rw [setLogicalLock_scripted_at replies rows ticks true i fuel hfuel hbefore, hk,
        setLogicalLock_scripted_step]
      simp [hrep, htick, boolToString]
  refine ⟨⟨?_, ?_⟩, hat, ?_⟩
  · rintro ⟨fuel, h⟩
    obtain ⟨i, hi, hbefore⟩ := setLogicalLock_scripted_success replies rows ticks true fuel _ h
    simp only [Script.start, Nat.zero_add] at hi hbefore
    refine ⟨i, hi, fun j hj => ?_⟩
    obtain ⟨⟨n, hn, hrep⟩, htick⟩ := hbefore j hj
    rcases hpk j n hrep with h0 | h1
    · subst h0
      exact ⟨hrep, htick⟩
    · exact absurd h1 hn
  · rintro ⟨i, hi, hbefore⟩
    exact ⟨i + 1, by rw [(hat i hbefore).1 hi (i + 1) (by omega)]⟩
  · intro σ D fuel appID statements s s1 s2 e hid hboot hacq
    simp [Migrate, hid, hboot, hacq]

/-- Witness of `Acquire_outcomes`: two attempts find the lock taken, the third gets it. -/
theorem Acquire_outcomes_witness :
    (∀ i n, contended 2 i = ExecResult.result (Except.ok n) → n = 0 ∨ n = 1) ∧
    (((∃ fuel, (setLogicalLock (scripted (contended 2) (fun _ => Except.error Err.noRows)
          (fun _ => none)) true fuel Script.start).1 = some none) ↔
        ∃ i, contended 2 i = ExecResult.result (Except.ok 1) ∧
          ∀ j, j < i → contended 2 j = ExecResult.result (Except.ok 0) ∧
            (fun _ => none : Nat → Option Err) j = none) ∧
      (∀ i, (∀ j, j < i → contended 2 j = ExecResult.result (Except.ok 0) ∧
            (fun _ => none : Nat → Option Err) j = none) →
        (contended 2 i = ExecResult.result (Except.ok 1) → ∀ fuel, i < fuel →
          setLogicalLock (scripted (contended 2) (fun _ => Except.error Err.noRows)
              (fun _ => none)) true fuel Script.start =
            (some none, ⟨i + 1, 0, i,
              pollEvents true i ++ [Event.exec (Call.updateLocked "true" "false")]⟩)) ∧
        (∀ e, contended 2 i = ExecResult.failed e ∨
            contended 2 i = ExecResult.result (Except.error e) → ∀ fuel, i < fuel →
          setLogicalLock (scripted (contended 2) (fun _ => Except.error Err.noRows)
              (fun _ => none)) true fuel Script.start =
            (some (some e), ⟨i + 1, 0, i,
              pollEvents true i ++ [Event.exec (Call.updateLocked "true" "false")]⟩)) ∧
        (∀ e, contended 2 i = ExecResult.result (Except.ok 0) →
          (fun _ => none : Nat → Option Err) i = some e →
          ∀ fuel, i < fuel →
          setLogicalLock (scripted (contended 2) (fun _ => Except.error Err.noRows)
              (fun _ => none)) true fuel Script.start =
            (some (some e), ⟨i + 1, 0, i + 1,
              pollEvents true i ++
                [Event.exec (Call.updateLocked "true" "false"), Event.wait]⟩))) ∧
      (∀ (σ : Type) (D : Driver σ) (fuel : Nat) (appID : String) (statements : List String)
          (s s1 s2 : σ) (e : Err), appID ≠ "" → ensureMetatable D s = (none, s1) →
        setLogicalLock D true fuel s1 = (some (some e), s2) →
        Migrate D fuel appID statements s = (Result.returned (some e), s2))) :=
  ⟨fun i n h => by
      unfold contended at h
      split at h <;> simp at h <;> omega,
    Acquire_outcomes (contended 2) (fun _ => Except.error Err.noRows) (fun _ => none)
      (fun i n h => by
        unfold contended at h
        split at h <;> simp at h <;> omega)⟩

/-- C6, as stated, fails: when the update of Release reports zero rows affected, Release
does not return after one update.  On a store whose `locked` row holds `"false"` three
rounds issue three updates and three waits and Release has not returned; against a script
whose first reply is zero rows and whose second is one row, Release returns after two
updates and one wait. -/
theorem Release_retries_after_zero_rows :
    setLogicalLock (mysql Env.quiet) false 3 World.fresh =
        (none, ⟨some MetaTable.defaults, pollEvents false 3⟩) ∧
      setLogicalLock (scripted (contended 1) (fun _ => Except.error Err.noRows)
          (fun _ => none)) false 2 Script.start =
        (some none, ⟨2, 0, 1,
          [Event.exec (Call.updateLocked "false" "true"), Event.wait,
            Event.exec (Call.updateLocked "false" "true")]⟩) := by
  decide

/-- C6, amended: Release issues the conditional update of the locked row from `"true"` to
`"false"`; when that update reports exactly one row affected, or fails, Release returns
after exactly one update and no wait (so it does on a store that holds the lock); when the
update reports another count, zero included, Release waits, and after a tick it issues
the update again, as Acquire does. -/
theorem Release_single_update_when_held (replies : Nat → ExecResult)
    (rows : Nat → Except Err String) (ticks : Nat → Option Err) (fuel : Nat)
    (hfuel : 0 < fuel) :
    (replies 0 = ExecResult.result (Except.ok 1) →
        setLogicalLock (scripted replies rows ticks) false fuel Script.start =
          (some none, ⟨1, 0, 0, [Event.exec (Call.updateLocked "false" "true")]⟩)) ∧
      (∀ e, replies 0 = ExecResult.failed e ∨ replies 0 = ExecResult.result (Except.error e) →
        setLogicalLock (scripted replies rows ticks) false fuel Script.start =
          (some (some e), ⟨1, 0, 0, [Event.exec (Call.updateLocked "false" "true")]⟩)) ∧
      (∀ n, n ≠ 1 → replies 0 = ExecResult.result (Except.ok n) →
        (∀ e, ticks 0 = some e →
          setLogicalLock (scripted replies rows ticks) false fuel Script.start =
            (some (some e), ⟨1, 0, 1,
              [Event.exec (Call.updateLocked "false" "true"), Event.wait]⟩)) ∧
        (ticks 0 = none →
          setLogicalLock (scripted replies rows ticks) false fuel Script.start =
            setLogicalLock (scripted replies rows ticks) false (fuel - 1)
              ⟨1, 0, 1, [Event.exec (Call.updateLocked "false" "true"), Event.wait]⟩)) ∧
      (∀ (env : Env) (log : List Event) (a u : Option String),
        ∃ r l, setLogicalLock (mysql env) false fuel ⟨some ⟨a, u, some "true"⟩, log⟩ =
          (some r, ⟨some ⟨a, u, some l⟩,
            log ++ [Event.exec (Call.updateLocked "false" "true")]⟩)) := by
  obtain ⟨k, rfl⟩ : ∃ k, fuel = k + 1 := ⟨fuel - 1, by omega⟩
  refine ⟨?_, ?_, ?_, ?_⟩
  · intro h
    rw [setLogicalLock_scripted_step]
    simp [Script.start, h, boolToString]
  · intro e h
    rw [setLogicalLock_scripted_step]
    rcases h with h | h <;> simp [Script.start, h, boolToString]
  · intro n hn h
    refine ⟨?_, ?_⟩
    · intro e htick
      rw [setLogicalLock_scripted_step]
      simp [Script.start, h, hn, htick, boolToString]
    · intro htick
      rw [setLogicalLock_scripted_step]
      simp [Script.start, h, hn, htick, boolToString]
  · intro env log a u
    obtain ⟨r, l, h, _⟩ := release_mysql env (k + 1) log a u hfuel
    exact ⟨r, l, h⟩

/-- Witness of `Release_single_update_when_held`: the lock is held, so the first update
reports one row. -/
theorem Release_single_update_when_held_witness :
    0 < 1 ∧
    ((contended 0 0 = ExecResult.result (Except.ok 1) →
        setLogicalLock (scripted (contended 0) (fun _ => Except.error Err.noRows)
            (fun _ => none)) false 1 Script.start =
          (some none, ⟨1, 0, 0, [Event.exec (Call.updateLocked "false" "true")]⟩)) ∧
      (∀ e, contended 0 0 = ExecResult.failed e ∨
          contended 0 0 = ExecResult.result (Except.error e) →
        setLogicalLock (scripted (contended 0) (fun _ => Except.error Err.noRows)
            (fun _ => none)) false 1 Script.start =
          (some (some e), ⟨1, 0, 0, [Event.exec (Call.updateLocked "false" "true")]⟩)) ∧
      (∀ n, n ≠ 1 → contended 0 0 = ExecResult.result (Except.ok n) →
        (∀ e, (fun _ => none : Nat → Option Err) 0 = some e →
          setLogicalLock (scripted (contended 0) (fun _ => Except.error Err.noRows)
              (fun _ => none)) false 1 Script.start =
            (some (some e), ⟨1, 0, 1,
              [Event.exec (Call.updateLocked "false" "true"), Event.wait]⟩)) ∧
        ((fun _ => none : Nat → Option Err) 0 = none →
          setLogicalLock (scripted (contended 0) (fun _ => Except.error Err.noRows)
              (fun _ => none)) false 1 Script.start =
            setLogicalLock (scripted (contended 0) (fun _ => Except.error Err.noRows)
                (fun _ => none)) false (1 - 1)
              ⟨1, 0, 1, [Event.exec (Call.updateLocked "false" "true"), Event.wait]⟩)) ∧
      (∀ (env : Env) (log : List Event) (a u : Option String),
        ∃ r l, setLogicalLock (mysql env) false 1 ⟨some ⟨a, u, some "true"⟩, log⟩ =
          (some r, ⟨some ⟨a, u, some l⟩,
            log ++ [Event.exec (Call.updateLocked "false" "true")]⟩))) :=
  ⟨by decide,
    Release_single_update_when_held (contended 0) (fun _ => Except.error Err.noRows)
      (fun _ => none) 1 (by decide)⟩

/-- C5 fails on the code: the caller's context is cancelled while the first statement
runs (event 6); `Migrate` returns the cancellation error, the deferred release is called
with the same cancelled context and fails, and the `locked` row still holds `"true"` when
`Migrate` returns.  A later call on that store polls without acquiring the lock. -/
theorem Migrate_cancelled_keeps_lock :
    Migrate (mysql (Env.cancelFrom 6)) 1 "app1" exampleStatements World.fresh =
      (Result.returned (some Err.canceled),
        ⟨some ⟨some "app1", some "0", some "true"⟩,
          [Event.exec Call.createMeta, Event.exec Call.insertDefaults,
            Event.exec (Call.updateLocked "true" "false"), Event.query Query.selectAppID,
            Event.exec (Call.updateAppID "app1"), Event.query Query.selectUserVersion,
            Event.exec (Call.statement "create table t (id int)"),
            Event.exec (Call.updateLocked "false" "true")]⟩) ∧
      (Migrate (mysql Env.quiet) 4 "app1" exampleStatements
        (Migrate (mysql (Env.cancelFrom 6)) 1 "app1" exampleStatements World.fresh).2).1 =
        Result.outOfFuel := by
  decide

end Migration
